import Mathlib

/-
Verification development for the go-machina finite-state-machine engine.

The definitions below are a shallow embedding of the Go source:
  - machina/fsm.go        : StateMachine, Trigger, getTransitionForEvent,
                            executeConditions, execute*Actions, mergeData,
                            ReturnToPreviousStateAction, NewStateMachine
  - machina/definition.go : State, Transition, WorkflowDefinition
  - registry source       : Registry, RegisterAction, GetCondition, GetAction
  - validation source     : WorkflowDefinition.Validate, State.Validate,
                            Transition.Validate

Go maps `map[string]any` are modelled as association lists of string keys and
a tagged value type; Go callback signatures `(ctx, map) (bool, error)` and
`(ctx, map) (map, error)` are modelled as pure functions into `Except` (the
context is dropped: no claim concerns cancellation).  The engine code writes
only into its working copy (`persistenceData`); the embedding threads the
caller's payload map and the workflow definition through `Trigger` explicitly
(fields `payloadAfter` and `definitionAfter` of the outcome), mirroring where
each Go assignment targets.  The `sm.logger.Info` calls that announce each
condition and action execution are modelled as a trace of (phase, name)
entries accumulated on the successful path.
-/

namespace Machina

/-- Dynamically typed data-bag value, modelling Go `any` for the value shapes
the engine and its built-in action inspect: strings, booleans, integers and
string slices (the workflow stack). -/
inductive Value where
  | str (s : String)
  | boolean (b : Bool)
  | int (n : Int)
  | strList (l : List String)
deriving DecidableEq

/-- A Go `map[string]any`, modelled as an association list. -/
abbrev Bag := List (String × Value)

/-- Remove every binding of key `k` from the bag (Go `delete(b, k)`). -/
def bagErase : Bag → String → Bag
  | [], _ => []
  | p :: rest, k => if p.1 = k then bagErase rest k else p :: bagErase rest k

/-- Go map assignment `b[k] = v`. -/
def bagInsert (b : Bag) (k : String) (v : Value) : Bag :=
  (k, v) :: bagErase b k

/-- Go map lookup `v, ok := b[k]`. -/
def bagGet : Bag → String → Option Value
  | [], _ => none
  | p :: rest, k => if p.1 = k then some p.2 else bagGet rest k

/-- Go `for k, v := range updates { dst[k] = v }`: last-writer-wins merge of
an update map into a destination map (fsm.go, the merge loops of the three
execute*Actions helpers). -/
def mergeInto (dst updates : Bag) : Bag :=
  updates.foldl (fun d p => bagInsert d p.1 p.2) dst

/-- Transition (machina/definition.go). -/
structure Transition where
  Event : String
  Target : String
  Conditions : List String
  Actions : List String
  AutoEvent : String
deriving DecidableEq

/-- State (machina/definition.go; the `IsSideQuest` flag appears in the
configuration model and is never special-cased by the engine). -/
structure State where
  Name : String
  OnEnter : List String
  OnLeave : List String
  Transitions : List Transition
  IsSideQuest : Bool
deriving DecidableEq

/-- WorkflowDefinition (machina/definition.go): a map from state name to
State, plus the optional initial state consulted by Validate.  The Go map is
modelled as an association list with unique keys. -/
structure WorkflowDefinition where
  States : List (String × State)
  InitialState : String
deriving DecidableEq

/-- Go map lookup `state, exists := wd.States[name]`. -/
def lookupState (wd : WorkflowDefinition) (name : String) : Option State :=
  (wd.States.find? (fun p => p.1 = name)).map (fun p => p.2)

/-- ConditionFunc (machina/interfaces.go), with the context dropped. -/
abbrev ConditionFunc := Bag → Except String Bool

/-- ActionFunc (machina/interfaces.go): a `nil` result map is `none`. -/
abbrev ActionFunc := Bag → Except String (Option Bag)

/-- Registry (registry source): name-to-implementation stores for conditions
and actions.  The locking is irrelevant to the sequential semantics. -/
structure Registry where
  conditions : String → Option ConditionFunc
  actions : String → Option ActionFunc

/-- Registry.GetCondition. -/
def getCondition (reg : Registry) (name : String) : Except String ConditionFunc :=
  match reg.conditions name with
  | some c => Except.ok c
  | none => Except.error ("condition " ++ name ++ " not found")

/-- Registry.GetAction. -/
def getAction (reg : Registry) (name : String) : Except String ActionFunc :=
  match reg.actions name with
  | some a => Except.ok a
  | none => Except.error ("action " ++ name ++ " not found")

/-- Registry.RegisterAction: fails (leaving the store unchanged) when the
name is already registered; NewStateMachine ignores that error, so the
embedding returns the registry unchanged in that case. -/
def registerAction (reg : Registry) (name : String) (act : ActionFunc) : Registry :=
  match reg.actions name with
  | some _ => reg
  | none =>
      { reg with actions := fun n => if n = name then some act else reg.actions n }

/-- Transition.Validate (validation source). -/
def Transition.Validate (t : Transition) : Except String Unit :=
  if t.Event = "" then Except.error ("transition must have an event")
  else if t.Target = "" then Except.error ("transition must have a target state")
  else Except.ok ()

/-- The transition loop of State.Validate. -/
def validateTransitionList : List Transition → Except String Unit
  | [] => Except.ok ()
  | t :: rest =>
      match t.Validate with
      | Except.error e =>
          Except.error ("invalid transition for event " ++ t.Event ++ ": " ++ e)
      | Except.ok () => validateTransitionList rest

/-- State.Validate (validation source). -/
def State.Validate (s : State) : Except String Unit :=
  if s.Name = "" then Except.error ("state must have a name")
  else validateTransitionList s.Transitions

/-- The per-state loop of WorkflowDefinition.Validate. -/
def validateStateList : List (String × State) → Except String Unit
  | [] => Except.ok ()
  | (name, st) :: rest =>
      if name ≠ st.Name then
        Except.error ("state key " ++ name ++ " does not match state name " ++ st.Name)
      else
        match st.Validate with
        | Except.error e => Except.error ("invalid state " ++ st.Name ++ ": " ++ e)
        | Except.ok () => validateStateList rest

/-- WorkflowDefinition.Validate (validation source). -/
def WorkflowDefinition.Validate (wd : WorkflowDefinition) : Except String Unit :=
  if wd.States.isEmpty then Except.error ("workflow must have at least one state")
  else if wd.InitialState ≠ "" ∧ lookupState wd wd.InitialState = none then
    Except.error ("initialState " ++ wd.InitialState ++ " not found in states")
  else validateStateList wd.States

/-- StateMachine (fsm.go), stripped of the logger, metrics and tracer, which
carry no transition semantics. -/
structure StateMachine where
  definition : WorkflowDefinition
  registry : Registry

/-- The reserved name under which NewStateMachine pre-registers the built-in
return action (fsm.go line 64). -/
def returnActionName : String := "__RETURN_TO_PREVIOUS_STATE__"

/-- The reserved dynamic-target override key (fsm.go line 146). -/
def overrideKey : String := "__next_state_override"

/-- The reserved workflow-stack key read by the built-in return action
(fsm.go line 428). -/
def stackKey : String := "WorkflowStack"

/-- ReturnToPreviousStateAction (fsm.go lines 426-442): pop the last element
of the `WorkflowStack` entry; fail when the entry is absent, not a string
slice, or empty. -/
def ReturnToPreviousStateAction : ActionFunc := fun data =>
  match bagGet data stackKey with
  | some (Value.strList workflowStack) =>
      match workflowStack.getLast? with
      | none => Except.error ("workflow stack not found or empty")
      | some returnState =>
          Except.ok (some [(overrideKey, Value.str returnState),
                           (stackKey, Value.strList workflowStack.dropLast)])
  | _ => Except.error ("workflow stack not found or empty")

/-- NewStateMachine (fsm.go lines 52-81): validate the definition (returning
nothing usable on failure) and pre-register the built-in return action. -/
def NewStateMachine (definition : WorkflowDefinition) (registry : Registry) :
    Option StateMachine :=
  match definition.Validate with
  | Except.error _ => none
  | Except.ok () =>
      some { definition := definition,
             registry := registerAction registry returnActionName ReturnToPreviousStateAction }

/-- The inner all-conditions loop of the multi-candidate branch of
getTransitionForEvent (fsm.go lines 258-275): `ok false` models a clean
`allConditionsMet = false`, errors from lookup or evaluation propagate. -/
def checkConditions (reg : Registry) (conds : List String) (payload : Bag) :
    Except String Bool :=
  match conds with
  | [] => Except.ok true
  | c :: rest =>
      match reg.conditions c with
      | none => Except.error ("failed to get condition " ++ c ++ ": condition " ++ c ++ " not found")
      | some cond =>
          match cond payload with
          | Except.error e => Except.error ("condition " ++ c ++ " failed: " ++ e)
          | Except.ok false => Except.ok false
          | Except.ok true => checkConditions reg rest payload

/-- The multi-candidate loop of getTransitionForEvent (fsm.go lines 252-283):
scan the candidates in declaration order, returning the first whose condition
list is empty or fully satisfied; a condition lookup or evaluation error
aborts the scan. -/
def resolveMulti (reg : Registry) (ts : List Transition) (event : String) (payload : Bag) :
    Except String Transition :=
  match ts with
  | [] => Except.error ("no transition found for event " ++ event ++ " with matching conditions")
  | t :: rest =>
      match checkConditions reg t.Conditions payload with
      | Except.error e => Except.error e
      | Except.ok true => Except.ok t
      | Except.ok false => resolveMulti reg rest event payload

/-- getTransitionForEvent (fsm.go lines 232-284): collect the transitions of
the state whose event matches; none is an error, a unique one is returned
directly (no condition is evaluated), several are disambiguated by
resolveMulti.  The collected list copies the transition values out of the
state (Go `append` of slice values), so the caller receives per-invocation
copies. -/
def getTransitionForEvent (reg : Registry) (state : State) (event : String) (payload : Bag) :
    Except String Transition :=
  match state.Transitions.filter (fun t => t.Event = event) with
  | [] => Except.error ("no transition found for event " ++ event)
  | [t] => Except.ok t
  | t :: rest => resolveMulti reg (t :: rest) event payload

/-- Phases under which the engine logs and runs callbacks. -/
inductive Phase where
  | condition
  | transitionAction
  | onLeave
  | onEnter
deriving DecidableEq

/-- Execution trace: one (phase, callback-name) entry per callback the engine
ran, modelling the per-step logger calls in fsm.go. -/
abbrev Trace := List (Phase × String)

/-- executeConditions (fsm.go lines 301-328): every condition of the resolved
transition must look up and evaluate to true; a false result is an error here,
unlike in resolveMulti. -/
def executeConditions (reg : Registry) (conds : List String) (payload : Bag) :
    Except String Trace :=
  match conds with
  | [] => Except.ok []
  | c :: rest =>
      match reg.conditions c with
      | none => Except.error ("failed to get condition " ++ c ++ ": condition " ++ c ++ " not found")
      | some cond =>
          match cond payload with
          | Except.error e => Except.error ("condition " ++ c ++ " failed: " ++ e)
          | Except.ok false => Except.error ("condition " ++ c ++ " evaluated to false")
          | Except.ok true =>
              match executeConditions reg rest payload with
              | Except.error e => Except.error e
              | Except.ok tr => Except.ok ((Phase.condition, c) :: tr)

/-- Common body of executeTransitionActions, executeOnLeaveActions and
executeOnEnterActions (fsm.go lines 331-415, three textually identical loops
differing only in their log/error strings): each action is looked up, run
against the original payload, and its non-nil result merged into the working
copy `pd`. -/
def runActions (reg : Registry) (phase : Phase) (notFoundPrefix failInfix : String)
    (actions : List String) (payload pd : Bag) : Except String (Bag × Trace) :=
  match actions with
  | [] => Except.ok (pd, [])
  | a :: rest =>
      match reg.actions a with
      | none => Except.error (notFoundPrefix ++ a ++ ": action " ++ a ++ " not found")
      | some act =>
          match act payload with
          | Except.error e => Except.error (phaseName phase ++ " action " ++ a ++ failInfix ++ e)
          | Except.ok none =>
              match runActions reg phase notFoundPrefix failInfix rest payload pd with
              | Except.error e => Except.error e
              | Except.ok (pd2, tr) => Except.ok (pd2, (phase, a) :: tr)
          | Except.ok (some updates) =>
              match runActions reg phase notFoundPrefix failInfix rest payload (mergeInto pd updates) with
              | Except.error e => Except.error e
              | Except.ok (pd2, tr) => Except.ok (pd2, (phase, a) :: tr)
where
  phaseName : Phase → String
  | Phase.condition => "condition"
  | Phase.transitionAction => "transition"
  | Phase.onLeave => "OnLeave"
  | Phase.onEnter => "OnEnter"

/-- executeTransitionActions (fsm.go lines 331-357). -/
def executeTransitionActions (reg : Registry) (actions : List String) (payload pd : Bag) :
    Except String (Bag × Trace) :=
  runActions reg Phase.transitionAction ("failed to get transition action ") (" failed: ") actions payload pd

/-- executeOnLeaveActions (fsm.go lines 360-386). -/
def executeOnLeaveActions (reg : Registry) (actions : List String) (payload pd : Bag) :
    Except String (Bag × Trace) :=
  runActions reg Phase.onLeave ("failed to get OnLeave action ") (" failed: ") actions payload pd

/-- executeOnEnterActions (fsm.go lines 389-415). -/
def executeOnEnterActions (reg : Registry) (actions : List String) (payload pd : Bag) :
    Except String (Bag × Trace) :=
  runActions reg Phase.onEnter ("failed to get OnEnter action ") (" failed: ") actions payload pd

/-- The dynamic-target override check of Trigger (fsm.go lines 146-155): when
the working copy holds the reserved key with a non-empty string, that string
replaces the target of the per-invocation transition copy and the key is
deleted from the working copy; any other shape leaves both untouched. -/
def applyOverride (transition : Transition) (pd : Bag) : Transition × Bag :=
  match bagGet pd overrideKey with
  | some (Value.str s) =>
      if s = "" then (transition, pd)
      else ({ transition with Target := s }, bagErase pd overrideKey)
  | some _ => (transition, pd)
  | none => (transition, pd)

/-- TransitionResult (fsm.go lines 18-23). -/
structure TransitionResult where
  NewState : String
  AutoEvent : String
  PersistenceData : Bag
deriving DecidableEq

/-- Everything one Trigger invocation leaves behind: the Go return values
(`result`), the callback log (`trace`, empty on the failure paths, where no
claim consults it), and the two structures the caller shares with the engine,
as the engine leaves them.  Every assignment in the Go pipeline targets the
working copy or the per-invocation transition copy, so the embedding threads
`payloadAfter` and `definitionAfter` through unchanged wherever the Go code
leaves them unwritten. -/
structure TriggerOutcome where
  result : Except String TransitionResult
  trace : Trace
  payloadAfter : Bag
  definitionAfter : WorkflowDefinition

/-- Failure outcome helper: the pipeline aborts with an error, leaving the
caller's payload and the definition as they were. -/
def failOutcome (payload : Bag) (wd : WorkflowDefinition) (e : String) : TriggerOutcome :=
  { result := Except.error e, trace := [], payloadAfter := payload, definitionAfter := wd }

/-- Trigger (fsm.go lines 84-203): resolve the state and transition, copy the
payload into the working copy, check conditions, run transition actions,
apply the dynamic-target override, run the source state OnLeave actions, look
up the (possibly overridden) target and run its OnEnter actions.  The Go copy
loop of lines 126-129 builds a fresh map with the payload's entries, which
for the value-semantics bags of this embedding is the payload itself. -/
def Trigger (sm : StateMachine) (currentState event : String) (payload : Bag) :
    TriggerOutcome :=
  match lookupState sm.definition currentState with
  | none =>
      failOutcome payload sm.definition
        ("failed to get state definition for " ++ currentState ++ ": state " ++ currentState ++ " not found")
  | some stateDef =>
      match getTransitionForEvent sm.registry stateDef event payload with
      | Except.error e =>
          failOutcome payload sm.definition
            ("no valid transition found for event " ++ event ++ " in state " ++ currentState ++ ": " ++ e)
      | Except.ok transition =>
          match executeConditions sm.registry transition.Conditions payload with
          | Except.error e => failOutcome payload sm.definition e
          | Except.ok condTrace =>
              match executeTransitionActions sm.registry transition.Actions payload payload with
              | Except.error e => failOutcome payload sm.definition e
              | Except.ok (pd1, actTrace) =>
                  match executeOnLeaveActions sm.registry stateDef.OnLeave payload
                      (applyOverride transition pd1).2 with
                  | Except.error e => failOutcome payload sm.definition e
                  | Except.ok (pd3, leaveTrace) =>
                      match lookupState sm.definition (applyOverride transition pd1).1.Target with
                      | none =>
                          failOutcome payload sm.definition
                            ("failed to get target state definition for " ++ (applyOverride transition pd1).1.Target)
                      | some targetStateDef =>
                          match executeOnEnterActions sm.registry targetStateDef.OnEnter payload pd3 with
                          | Except.error e => failOutcome payload sm.definition e
                          | Except.ok (pd4, enterTrace) =>
                              { result := Except.ok
                                  { NewState := (applyOverride transition pd1).1.Target,
                                    AutoEvent := (applyOverride transition pd1).1.AutoEvent,
                                    PersistenceData := pd4 },
                                trace := condTrace ++ actTrace ++ leaveTrace ++ enterTrace,
                                payloadAfter := payload,
                                definitionAfter := sm.definition }

/- Bag lemmas -/

lemma bagGet_erase_self (b : Bag) (k : String) : bagGet (bagErase b k) k = none := by
  induction b with
  | nil => rfl
  | cons p rest ih => by_cases hpk : p.1 = k <;> simp [bagErase, bagGet, hpk, ih]

lemma bagGet_erase (b : Bag) (k k2 : String) :
    bagGet (bagErase b k) k2 = if k2 = k then none else bagGet b k2 := by
  induction b with
  | nil => simp [bagErase, bagGet]
  | cons p rest ih =>
      by_cases hpk : p.1 = k
      · by_cases hpk2 : p.1 = k2
        · have hk2 : k2 = k := hpk2.symm.trans hpk
          simp [bagErase, bagGet, hpk, hk2, bagGet_erase_self]
        · have hkk2 : ¬(k = k2) := fun h => hpk2 (hpk.trans h)
          simp [bagErase, bagGet, hpk, hpk2, ih, hkk2]
      · by_cases hpk2 : p.1 = k2
        · have hk2 : ¬(k2 = k) := fun h => hpk (hpk2.trans h)
          simp [bagErase, bagGet, hpk, hpk2, hk2]
        · simp [bagErase, bagGet, hpk, hpk2, ih]

lemma bagGet_insert (b : Bag) (k : String) (v : Value) (k2 : String) :
    bagGet (bagInsert b k v) k2 = if k2 = k then some v else bagGet b k2 := by
  by_cases hk2 : k2 = k
  · simp [bagInsert, bagGet, hk2]
  · have hne : ¬(k = k2) := fun h => hk2 h.symm
    simp [bagInsert, bagGet, hne, hk2, bagGet_erase]

lemma bagGet_mergeInto_of_none (updates : Bag) (pd : Bag) (k : String)
    (h : bagGet updates k = none) : bagGet (mergeInto pd updates) k = bagGet pd k := by
  induction updates generalizing pd with
  | nil => rfl
  | cons p rest ih =>
      by_cases hpk : p.1 = k
      · simp [bagGet, hpk] at h
      · simp [bagGet, hpk] at h
        simp only [mergeInto, List.foldl_cons] at *
        rw [ih _ h, bagGet_insert]
        have hkp : ¬(k = p.1) := fun hh => hpk hh.symm
        simp [hkp]

lemma bagGet_mergeInto_isSome (updates : Bag) (pd : Bag) (k : String)
    (h : (bagGet pd k).isSome) : (bagGet (mergeInto pd updates) k).isSome := by
  induction updates generalizing pd with
  | nil => exact h
  | cons p rest ih =>
      simp only [mergeInto, List.foldl_cons] at *
      apply ih
      rw [bagGet_insert]
      by_cases hk : k = p.1 <;> simp [hk, h]

/- Lemmas on the callback-running helpers -/

lemma executeConditions_ok_trace (reg : Registry) (conds : List String) (payload : Bag)
    (tr : Trace) (h : executeConditions reg conds payload = Except.ok tr) :
    tr = conds.map (fun c => (Phase.condition, c)) := by
  induction conds generalizing tr with
  | nil =>
      simp [executeConditions] at h
      simp [h.symm]
  | cons c rest ih =>
      rw [executeConditions] at h
      split at h
      · exact absurd h (by simp)
      · split at h
        · exact absurd h (by simp)
        · exact absurd h (by simp)
        · split at h
          · exact absurd h (by simp)
          · rename_i tr2 hrest
            simp at h
            simp [h.symm, ih tr2 hrest]

lemma runActions_ok_trace (reg : Registry) (phase : Phase) (s1 s2 : String)
    (actions : List String) (payload pd pd2 : Bag) (tr : Trace)
    (h : runActions reg phase s1 s2 actions payload pd = Except.ok (pd2, tr)) :
    tr = actions.map (fun a => (phase, a)) := by
  induction actions generalizing pd pd2 tr with
  | nil =>
      simp [runActions] at h
      simp [h.2.symm]
  | cons a rest ih =>
      rw [runActions] at h
      split at h
      · exact absurd h (by simp)
      · split at h
        · exact absurd h (by simp)
        · split at h
          · exact absurd h (by simp)
          · rename_i pr hrest
            simp at h
            simp [h.2.symm, ih _ _ _ hrest]
        · split at h
          · exact absurd h (by simp)
          · rename_i pr hrest
            simp at h
            simp [h.2.symm, ih _ _ _ hrest]

lemma runActions_ok_get_none (reg : Registry) (phase : Phase) (s1 s2 : String)
    (actions : List String) (payload pd pd2 : Bag) (tr : Trace) (k : String)
    (h : runActions reg phase s1 s2 actions payload pd = Except.ok (pd2, tr))
    (hk : bagGet pd k = none)
    (hacts : ∀ a ∈ actions, ∀ act updates, reg.actions a = some act →
        act payload = Except.ok (some updates) → bagGet updates k = none) :
    bagGet pd2 k = none := by
  induction actions generalizing pd pd2 tr with
  | nil =>
      simp [runActions] at h
      rw [← h.1]; exact hk
  | cons a rest ih =>
      rw [runActions] at h
      split at h
      · exact absurd h (by simp)
      · rename_i act hreg
        split at h
        · exact absurd h (by simp)
        · rename_i hev
          split at h
          · exact absurd h (by simp)
          · rename_i pd3 tr3 hrest
            simp at h
            have := ih pd pd3 tr3 hrest hk (fun a2 ha2 => hacts a2 (by simp [ha2]))
            rw [← h.1]; exact this
        · rename_i updates hev
          split at h
          · exact absurd h (by simp)
          · rename_i pd3 tr3 hrest
            simp at h
            have hupd := hacts a (by simp) act updates hreg hev
            have hnext : bagGet (mergeInto pd updates) k = none := by
              rw [bagGet_mergeInto_of_none _ _ _ hupd]; exact hk
            have := ih _ pd3 tr3 hrest hnext (fun a2 ha2 => hacts a2 (by simp [ha2]))
            rw [← h.1]; exact this

lemma runActions_ok_isSome (reg : Registry) (phase : Phase) (s1 s2 : String)
    (actions : List String) (payload pd pd2 : Bag) (tr : Trace) (k : String)
    (h : runActions reg phase s1 s2 actions payload pd = Except.ok (pd2, tr))
    (hk : (bagGet pd k).isSome) : (bagGet pd2 k).isSome := by
  induction actions generalizing pd pd2 tr with
  | nil =>
      simp [runActions] at h
      rw [← h.1]; exact hk
  | cons a rest ih =>
      rw [runActions] at h
      split at h
      · exact absurd h (by simp)
      · split at h
        · exact absurd h (by simp)
        · split at h
          · exact absurd h (by simp)
          · rename_i pd3 tr3 hrest
            simp at h
            have := ih pd pd3 tr3 hrest hk
            rw [← h.1]; exact this
        · rename_i updates hev
          split at h
          · exact absurd h (by simp)
          · rename_i pd3 tr3 hrest
            simp at h
            have := ih _ pd3 tr3 hrest (bagGet_mergeInto_isSome _ _ _ hk)
            rw [← h.1]; exact this

/- Lemmas on the multi-candidate resolver -/

lemma resolveMulti_ok (reg : Registry) (ts : List Transition) (event : String)
    (payload : Bag) (t : Transition)
    (h : resolveMulti reg ts event payload = Except.ok t) :
    ∃ pre post, ts = pre ++ t :: post ∧
      checkConditions reg t.Conditions payload = Except.ok true ∧
      ∀ u ∈ pre, checkConditions reg u.Conditions payload = Except.ok false := by
  induction ts with
  | nil => exact absurd h (by simp [resolveMulti])
  | cons t1 rest ih =>
      rw [resolveMulti] at h
      split at h
      · exact absurd h (by simp)
      · rename_i hchk
        simp at h
        subst h
        exact ⟨[], rest, rfl, hchk, by simp⟩
      · rename_i hchk
        rcases ih h with ⟨pre, post, heq, hok, hpre⟩
        refine ⟨t1 :: pre, post, by simp [heq], hok, ?_⟩
        intro u hu
        rcases List.mem_cons.mp hu with hu1 | hu1
        · rw [hu1]; exact hchk
        · exact hpre u hu1

lemma resolveMulti_error_of_none_ok (reg : Registry) (ts : List Transition)
    (event : String) (payload : Bag)
    (h : ∀ u ∈ ts, checkConditions reg u.Conditions payload ≠ Except.ok true) :
    ∃ e, resolveMulti reg ts event payload = Except.error e := by
  induction ts with
  | nil => exact ⟨_, rfl⟩
  | cons t1 rest ih =>
      rw [resolveMulti]
      rcases hchk : checkConditions reg t1.Conditions payload with e | b
      · exact ⟨e, rfl⟩
      · cases b
        · exact ih (fun u hu => h u (List.mem_cons_of_mem _ hu))
        · exact absurd hchk (h t1 (by simp))

lemma resolveMulti_error_after_clean (reg : Registry) (event : String) (payload : Bag)
    (pre : List Transition) (t : Transition) (post : List Transition) (e : String)
    (hpre : ∀ u ∈ pre, checkConditions reg u.Conditions payload = Except.ok false)
    (ht : checkConditions reg t.Conditions payload = Except.error e) :
    resolveMulti reg (pre ++ t :: post) event payload = Except.error e := by
  induction pre with
  | nil => simp [resolveMulti, ht]
  | cons u1 upre ih =>
      have hu1 := hpre u1 (by simp)
      rw [List.cons_append, resolveMulti, hu1]
      exact ih (fun u hu => hpre u (List.mem_cons_of_mem _ hu))

/- Lemmas on validation -/

lemma validateTransitionList_ok_iff (l : List Transition) :
    validateTransitionList l = Except.ok () ↔
      ∀ t ∈ l, t.Event ≠ "" ∧ t.Target ≠ "" := by
  induction l with
  | nil => simp [validateTransitionList]
  | cons t rest ih =>
      rw [validateTransitionList]
      rcases hv : t.Validate with e | u
      · simp only [hv]
        constructor
        · intro h; exact absurd h (by simp)
        · intro h
          rcases h t (by simp) with ⟨he, ht⟩
          rw [Transition.Validate, if_neg he, if_neg ht] at hv
          exact absurd hv (by simp)
      · rcases u
        simp only [hv, ih]
        rw [Transition.Validate] at hv
        by_cases he : t.Event = ""
        · rw [if_pos he] at hv; exact absurd hv (by simp)
        · by_cases ht : t.Target = ""
          · rw [if_neg he, if_pos ht] at hv; exact absurd hv (by simp)
          · constructor
            · intro h u hu
              rcases List.mem_cons.mp hu with hu1 | hu1
              · rw [hu1]; exact ⟨he, ht⟩
              · exact h u hu1
            · intro h u hu
              exact h u (List.mem_cons_of_mem _ hu)

lemma State_Validate_ok_iff (s : State) :
    s.Validate = Except.ok () ↔
      s.Name ≠ "" ∧ ∀ t ∈ s.Transitions, t.Event ≠ "" ∧ t.Target ≠ "" := by
  rw [State.Validate]
  by_cases hn : s.Name = ""
  · simp [hn]
  · simp [hn, validateTransitionList_ok_iff]

lemma validateStateList_ok_iff (l : List (String × State)) :
    validateStateList l = Except.ok () ↔
      ∀ p ∈ l, p.1 = p.2.Name ∧ p.2.Validate = Except.ok () := by
  induction l with
  | nil => simp [validateStateList]
  | cons p rest ih =>
      rcases p with ⟨name, st⟩
      rw [validateStateList]
      by_cases hname : name = st.Name
      · rw [if_neg (by simp [hname])]
        rcases hv : st.Validate with e | u
        · constructor
          · intro h; exact absurd h (by simp)
          · intro h
            rcases h (name, st) (by simp) with ⟨_, hok⟩
            simp only at hok
            rw [hok] at hv
            exact absurd hv (by simp)
        · rcases u
          simp only [ih]
          constructor
          · intro h u hu
            rcases List.mem_cons.mp hu with hu1 | hu1
            · rw [hu1]
              exact ⟨hname, hv⟩
            · exact h u hu1
          · intro h u hu
            exact h u (List.mem_cons_of_mem _ hu)
      · rw [if_pos (by simp [hname])]
        constructor
        · intro h; exact absurd h (by simp)
        · intro h
          exact absurd (h (name, st) (by simp)).1 hname

lemma WorkflowDefinition_Validate_ok_iff (wd : WorkflowDefinition) (hne : wd.States ≠ []) :
    wd.Validate = Except.ok () ↔
      (wd.InitialState = "" ∨ (lookupState wd wd.InitialState).isSome = true) ∧
      ∀ p ∈ wd.States, p.1 = p.2.Name ∧ p.2.Validate = Except.ok () := by
  rw [WorkflowDefinition.Validate]
  rw [if_neg (by simp [hne])]
  by_cases hinit : wd.InitialState ≠ "" ∧ lookupState wd wd.InitialState = none
  · rw [if_pos hinit]
    constructor
    · intro h; exact absurd h (by simp)
    · intro h
      rcases h.1 with h1 | h1
      · exact absurd h1 hinit.1
      · rw [hinit.2] at h1; exact absurd h1 (by simp)
  · rw [if_neg hinit]
    rw [validateStateList_ok_iff]
    constructor
    · intro h
      refine ⟨?_, h⟩
      by_cases he : wd.InitialState = ""
      · exact Or.inl he
      · right
        rcases hl : lookupState wd wd.InitialState with _ | st
        · exact absurd ⟨he, hl⟩ hinit
        · rfl
    · intro h; exact h.2

lemma NewStateMachine_isSome_iff (wd : WorkflowDefinition) (reg : Registry) :
    (NewStateMachine wd reg).isSome = true ↔ wd.Validate = Except.ok () := by
  rw [NewStateMachine]
  rcases hv : wd.Validate with e | u
  · simp [hv]
  · rcases u; simp [hv]

/- Inversion of a successful Trigger invocation -/

lemma Trigger_ok_inv (sm : StateMachine) (currentState event : String) (payload : Bag)
    (r : TransitionResult)
    (h : (Trigger sm currentState event payload).result = Except.ok r) :
    ∃ st t condTrace pd1 actTrace pd3 leaveTrace tgt pd4 enterTrace,
      lookupState sm.definition currentState = some st ∧
      getTransitionForEvent sm.registry st event payload = Except.ok t ∧
      executeConditions sm.registry t.Conditions payload = Except.ok condTrace ∧
      executeTransitionActions sm.registry t.Actions payload payload = Except.ok (pd1, actTrace) ∧
      executeOnLeaveActions sm.registry st.OnLeave payload (applyOverride t pd1).2 =
        Except.ok (pd3, leaveTrace) ∧
      lookupState sm.definition (applyOverride t pd1).1.Target = some tgt ∧
      executeOnEnterActions sm.registry tgt.OnEnter payload pd3 = Except.ok (pd4, enterTrace) ∧
      r = { NewState := (applyOverride t pd1).1.Target,
            AutoEvent := (applyOverride t pd1).1.AutoEvent,
            PersistenceData := pd4 } ∧
      (Trigger sm currentState event payload).trace =
        condTrace ++ actTrace ++ leaveTrace ++ enterTrace := by
  rw [Trigger] at h
  split at h
  · exact absurd h (by simp [failOutcome])
  · rename_i st hst
    split at h
    · exact absurd h (by simp [failOutcome])
    · rename_i t ht
      split at h
      · exact absurd h (by simp [failOutcome])
      · rename_i condTrace hcond
        split at h
        · exact absurd h (by simp [failOutcome])
        · rename_i pd1 actTrace hact
          split at h
          · exact absurd h (by simp [failOutcome])
          · rename_i pd3 leaveTrace hleave
            split at h
            · exact absurd h (by simp [failOutcome])
            · rename_i tgt htgt
              split at h
              · exact absurd h (by simp [failOutcome])
              · rename_i pd4 enterTrace henter
                simp only at h
                refine ⟨st, t, condTrace, pd1, actTrace, pd3, leaveTrace, tgt, pd4, enterTrace,
                  hst, ht, hcond, hact, hleave, htgt, henter, ?_, ?_⟩
                · cases h; rfl
                · simp only [Trigger, hst, ht, hcond, hact, hleave, htgt, henter]

/- Concrete fixtures used by the counterexamples and witnesses below.  The
condition and action names mirror the mock callbacks of the test suite:
an erroring condition, an always-false and an always-true condition, and
actions that write the override key or a marker key. -/

/-- A registry of concrete test callbacks. -/
def testReg : Registry :=
  { conditions := fun n =>
      if n = "boom" then some (fun _ => Except.error ("boom error"))
      else if n = "no" then some (fun _ => Except.ok false)
      else if n = "yes" then some (fun _ => Except.ok true)
      else none,
    actions := fun n =>
      if n = "setc" then some (fun _ => Except.ok (some [(overrideKey, Value.str "c")]))
      else if n = "bad" then some (fun _ => Except.ok (some [(overrideKey, Value.str "zzz")]))
      else if n = "setEmpty" then some (fun _ => Except.ok (some [(overrideKey, Value.str "")]))
      else if n = "mark" then some (fun _ => Except.ok (some [("mark", Value.boolean true)]))
      else if n = "noop" then some (fun _ => Except.ok none)
      else none }

/-- Transition on event go to x, guarded by the erroring condition. -/
def tBoomX : Transition :=
  { Event := "go", Target := "x", Conditions := ["boom"], Actions := [], AutoEvent := "" }

/-- Unguarded transition on event go to y. -/
def tPlainY : Transition :=
  { Event := "go", Target := "y", Conditions := [], Actions := [], AutoEvent := "" }

/-- Transition on event go to x, guarded by the always-false condition. -/
def tNoX : Transition :=
  { Event := "go", Target := "x", Conditions := ["no"], Actions := [], AutoEvent := "" }

/-- State with two transitions on go: an erroring-guard one, then an unguarded one. -/
def c1State : State :=
  { Name := "a", OnEnter := [], OnLeave := [], Transitions := [tBoomX, tPlainY],
    IsSideQuest := false }

/-- State with two transitions on go: a false-guard one, then an unguarded one. -/
def c4State : State :=
  { Name := "a", OnEnter := [], OnLeave := [], Transitions := [tNoX, tPlainY],
    IsSideQuest := false }

/-- State with a single transition on go, guarded by the erroring condition. -/
def c5State : State :=
  { Name := "a", OnEnter := [], OnLeave := [], Transitions := [tBoomX],
    IsSideQuest := false }

/-- A workflow containing only c5State. -/
def c5Def : WorkflowDefinition :=
  { States := [("a", c5State)], InitialState := "" }

/-- A plain terminal state named b. -/
def stateB : State :=
  { Name := "b", OnEnter := [], OnLeave := [], Transitions := [], IsSideQuest := false }

/-- Transition on go statically targeting b, whose action writes the override key. -/
def c3TGoB : Transition :=
  { Event := "go", Target := "b", Conditions := [], Actions := ["setc"], AutoEvent := "" }

/-- Source state for the override scenarios. -/
def c3StateA : State :=
  { Name := "a", OnEnter := [], OnLeave := [], Transitions := [c3TGoB], IsSideQuest := false }

/-- Override target whose entry callback re-writes the reserved key. -/
def c3StateCBad : State :=
  { Name := "c", OnEnter := ["bad"], OnLeave := [], Transitions := [], IsSideQuest := false }

/-- Override target with no callbacks. -/
def c3StateCGood : State :=
  { Name := "c", OnEnter := [], OnLeave := [], Transitions := [], IsSideQuest := false }

/-- Workflow in which the dynamically chosen target re-writes the reserved key. -/
def c3BadDef : WorkflowDefinition :=
  { States := [("a", c3StateA), ("b", stateB), ("c", c3StateCBad)], InitialState := "" }

/-- Workflow in which no exit or entry callback touches the reserved key. -/
def c3GoodDef : WorkflowDefinition :=
  { States := [("a", c3StateA), ("b", stateB), ("c", c3StateCGood)], InitialState := "" }

/-- State machine over c3BadDef. -/
def c3BadSM : StateMachine := { definition := c3BadDef, registry := testReg }

/-- State machine over c3GoodDef. -/
def c3GoodSM : StateMachine := { definition := c3GoodDef, registry := testReg }

/-- A state whose only flaw is a transition with an empty event name. -/
def c2BadState : State :=
  { Name := "a", OnEnter := [], OnLeave := [],
    Transitions := [{ Event := "", Target := "b", Conditions := [], Actions := [],
                      AutoEvent := "" }],
    IsSideQuest := false }

/-- A definition whose only flaw is a transition with an empty event name;
all state keys match their names and no initial state is set. -/
def c2Bad : WorkflowDefinition :=
  { States := [("a", c2BadState)], InitialState := "" }

/-- A fully valid definition with an initial state. -/
def c2Good : WorkflowDefinition :=
  { States := [("a", c3StateA), ("b", stateB)], InitialState := "a" }

/-- Transition guarded by the true condition whose action writes the override key. -/
def c6TGoB : Transition :=
  { Event := "go", Target := "b", Conditions := ["yes"], Actions := ["setc"], AutoEvent := "" }

/-- Source state with an exit callback, for the ordering witness. -/
def c6StateA : State :=
  { Name := "a", OnEnter := [], OnLeave := ["mark"], Transitions := [c6TGoB],
    IsSideQuest := false }

/-- Override target with an entry callback, for the ordering witness. -/
def c6StateC : State :=
  { Name := "c", OnEnter := ["mark"], OnLeave := [], Transitions := [], IsSideQuest := false }

/-- Workflow for the ordering witness. -/
def c6Def : WorkflowDefinition :=
  { States := [("a", c6StateA), ("b", stateB), ("c", c6StateC)], InitialState := "" }

/-- State machine over c6Def. -/
def c6SM : StateMachine := { definition := c6Def, registry := testReg }

/-- Transition whose action writes the override key with an empty string. -/
def c10TGoB : Transition :=
  { Event := "go", Target := "b", Conditions := [], Actions := ["setEmpty"], AutoEvent := "" }

/-- Source state for the malformed-override scenario. -/
def c10StateA : State :=
  { Name := "a", OnEnter := [], OnLeave := [], Transitions := [c10TGoB], IsSideQuest := false }

/-- Workflow for the malformed-override scenario. -/
def c10Def : WorkflowDefinition :=
  { States := [("a", c10StateA), ("b", stateB)], InitialState := "" }

/-- State machine over c10Def. -/
def c10SM : StateMachine := { definition := c10Def, registry := testReg }

/-- The outcome of triggering go on a in c10SM: static target b, with the
reserved key still bound to the empty string. -/
def c10Result : TransitionResult :=
  { NewState := "b", AutoEvent := "",
    PersistenceData := [(overrideKey, Value.str "")] }

/-- Reduction of getTransitionForEvent when several transitions match. -/
lemma getTransitionForEvent_multi (reg : Registry) (st : State) (event : String)
    (payload : Bag) (a b : Transition) (rest : List Transition)
    (hfilter : st.Transitions.filter (fun u => u.Event = event) = a :: b :: rest) :
    getTransitionForEvent reg st event payload = resolveMulti reg (a :: b :: rest) event payload := by
  rw [getTransitionForEvent, hfilter]

/-- Reduction of getTransitionForEvent when exactly one transition matches. -/
lemma getTransitionForEvent_single (reg : Registry) (st : State) (event : String)
    (payload : Bag) (t : Transition)
    (hfilter : st.Transitions.filter (fun u => u.Event = event) = [t]) :
    getTransitionForEvent reg st event payload = Except.ok t := by
  rw [getTransitionForEvent, hfilter]

/- Claim theorems -/

/-- C1 counterexample: in a state with two transitions on event go — the
first guarded by an erroring condition, the second unguarded — resolution
does NOT continue with the next candidate: getTransitionForEvent aborts with
the guard error, contradicting the claim that a guard error only rejects
that candidate. -/
theorem machina_C1_counterexample :
    c1State.Transitions.filter (fun u => u.Event = "go") = [tBoomX, tPlainY] ∧
    tPlainY.Conditions = [] ∧
    getTransitionForEvent testReg c1State "go" [] =
      Except.error ("condition boom failed: boom error") :=
  ⟨rfl, rfl, rfl⟩

/-- C1 (amended): during multi-candidate transition resolution, once the
candidates before `t` have been rejected cleanly (all-false guards), an error
from evaluating a guard of candidate `t` aborts the whole resolution with
that error; the candidate is not merely skipped. -/
theorem machina_C1_amended (reg : Registry) (st : State) (event : String) (payload : Bag)
    (pre : List Transition) (t : Transition) (post : List Transition) (e : String)
    (hmulti : pre ≠ [] ∨ post ≠ [])
    (hfilter : st.Transitions.filter (fun u => u.Event = event) = pre ++ t :: post)
    (hpre : ∀ u ∈ pre, checkConditions reg u.Conditions payload = Except.ok false)
    (ht : checkConditions reg t.Conditions payload = Except.error e) :
    getTransitionForEvent reg st event payload = Except.error e := by
  rcases pre with _ | ⟨p1, prest⟩
  · rcases post with _ | ⟨q1, qrest⟩
    · simp at hmulti
    · rw [getTransitionForEvent_multi reg st event payload t q1 qrest (by simpa using hfilter)]
      have := resolveMulti_error_after_clean reg event payload [] t (q1 :: qrest) e hpre ht
      simpa using this
  · rcases hl : prest ++ t :: post with _ | ⟨q1, qrest⟩
    · exact absurd hl (by simp)
    · rw [getTransitionForEvent_multi reg st event payload p1 q1 qrest
        (by rw [hfilter, List.cons_append, hl])]
      rw [← hl]
      have := resolveMulti_error_after_clean reg event payload (p1 :: prest) t post e hpre ht
      simpa using this

/-- C1 witness: the amended theorem applied to the concrete counterexample
state: resolution aborts with the first candidate's guard error. -/
theorem machina_C1_witness :
    getTransitionForEvent testReg c1State "go" [] =
      Except.error ("condition boom failed: boom error") :=
  machina_C1_amended testReg c1State "go" [] [] tBoomX [tPlainY]
    ("condition boom failed: boom error") (Or.inr (by simp)) rfl (by simp) rfl

/-- C4: for a state with at least two transitions matching event E, (a) any
transition the resolver returns is the first candidate in declaration order
whose condition list is empty or fully evaluates to true (all earlier
candidates having been rejected by a false condition), and (b) if no
candidate qualifies, resolution fails with an error. -/
theorem machina_C4 (reg : Registry) (st : State) (event : String) (payload : Bag)
    (t1 t2 : Transition) (rest : List Transition)
    (hfilter : st.Transitions.filter (fun u => u.Event = event) = t1 :: t2 :: rest) :
    (∀ t, getTransitionForEvent reg st event payload = Except.ok t →
        ∃ pre post, t1 :: t2 :: rest = pre ++ t :: post ∧
          checkConditions reg t.Conditions payload = Except.ok true ∧
          ∀ u ∈ pre, checkConditions reg u.Conditions payload = Except.ok false) ∧
    ((∀ u ∈ t1 :: t2 :: rest, checkConditions reg u.Conditions payload ≠ Except.ok true) →
        ∃ e, getTransitionForEvent reg st event payload = Except.error e) := by
  have hm := getTransitionForEvent_multi reg st event payload t1 t2 rest hfilter
  constructor
  · intro t ht
    rw [hm] at ht
    exact resolveMulti_ok reg _ event payload t ht
  · intro hnone
    rw [hm]
    exact resolveMulti_error_of_none_ok reg _ event payload hnone

/-- C4 witness: scenario B of the spec — two transitions on go, the first
guarded by an always-false condition targeting x, the second unguarded
targeting y — instantiates the theorem; resolution indeed returns the
second. -/
theorem machina_C4_witness :
    ((∀ t, getTransitionForEvent testReg c4State "go" [] = Except.ok t →
        ∃ pre post, tNoX :: tPlainY :: [] = pre ++ t :: post ∧
          checkConditions testReg t.Conditions [] = Except.ok true ∧
          ∀ u ∈ pre, checkConditions testReg u.Conditions [] = Except.ok false) ∧
     ((∀ u ∈ tNoX :: tPlainY :: ([] : List Transition),
          checkConditions testReg u.Conditions [] ≠ Except.ok true) →
        ∃ e, getTransitionForEvent testReg c4State "go" [] = Except.error e)) ∧
    getTransitionForEvent testReg c4State "go" [] = Except.ok tPlainY :=
  ⟨machina_C4 testReg c4State "go" [] tNoX tPlainY [] rfl, rfl⟩

/-- C5: for a state with exactly one transition matching event E, the
resolver returns that transition for every registry and payload — so no
guard can have been consulted during resolution — while the pipeline's
guard-check step still governs execution: if the transition's conditions
evaluate to an error (or a false, which executeConditions also turns into an
error), Trigger fails with exactly that error. -/
theorem machina_C5 (st : State) (event : String) (t : Transition)
    (hfilter : st.Transitions.filter (fun u => u.Event = event) = [t]) :
    (∀ reg payload, getTransitionForEvent reg st event payload = Except.ok t) ∧
    (∀ wd reg currentState payload e,
        lookupState wd currentState = some st →
        executeConditions reg t.Conditions payload = Except.error e →
        (Trigger { definition := wd, registry := reg } currentState event payload).result =
          Except.error e) := by
  constructor
  · intro reg payload
    exact getTransitionForEvent_single reg st event payload t hfilter
  · intro wd reg currentState payload e hlook hcond
    have h1 := getTransitionForEvent_single reg st event payload t hfilter
    simp only [Trigger, hlook, h1, hcond, failOutcome]

/-- C5 witness: a lone transition guarded by an erroring condition is
resolved without touching the guard, and the same guard then aborts the
pipeline during execution. -/
theorem machina_C5_witness :
    getTransitionForEvent testReg c5State "go" [] = Except.ok tBoomX ∧
    (Trigger { definition := c5Def, registry := testReg } "a" "go" []).result =
      Except.error ("condition boom failed: boom error") :=
  ⟨(machina_C5 c5State "go" tBoomX rfl).1 testReg [],
   (machina_C5 c5State "go" tBoomX rfl).2 c5Def testReg "a" []
     ("condition boom failed: boom error") rfl rfl⟩

/-- C2 counterexample: c2Bad has a non-empty state mapping, every key equals
its state's name and no initial state is set, yet construction fails,
because Validate also rejects the transition with an empty event — the
claimed equivalence is too weak. -/
theorem machina_C2_counterexample :
    (∀ p ∈ c2Bad.States, p.1 = p.2.Name) ∧
    c2Bad.InitialState = "" ∧
    c2Bad.States ≠ [] ∧
    (NewStateMachine c2Bad testReg).isSome = false :=
  ⟨by decide, rfl, by decide, rfl⟩

/-- C2 (amended): for definitions with a non-empty state mapping,
construction succeeds iff every state's key equals its declared name, the
initial state (when set) exists in the mapping, and additionally every state
name is non-empty and every transition has a non-empty event and target —
the extra structural checks of State.Validate and Transition.Validate. -/
theorem machina_C2_amended (wd : WorkflowDefinition) (reg : Registry)
    (hne : wd.States ≠ []) :
    (NewStateMachine wd reg).isSome = true ↔
      ((∀ p ∈ wd.States, p.1 = p.2.Name) ∧
       (wd.InitialState = "" ∨ (lookupState wd wd.InitialState).isSome = true) ∧
       ∀ p ∈ wd.States, p.2.Name ≠ "" ∧
         ∀ t ∈ p.2.Transitions, t.Event ≠ "" ∧ t.Target ≠ "") := by
  rw [NewStateMachine_isSome_iff, WorkflowDefinition_Validate_ok_iff wd hne]
  constructor
  · rintro ⟨hinit, hstates⟩
    refine ⟨fun p hp => (hstates p hp).1, hinit, fun p hp => ?_⟩
    have hv := (hstates p hp).2
    rw [State_Validate_ok_iff] at hv
    exact hv
  · rintro ⟨hkeys, hinit, hvalid⟩
    refine ⟨hinit, fun p hp => ⟨hkeys p hp, ?_⟩⟩
    rw [State_Validate_ok_iff]
    exact hvalid p hp

/-- C2 witness: the amended equivalence applied to a fully valid concrete
definition with an initial state: construction succeeds. -/
theorem machina_C2_witness : (NewStateMachine c2Good testReg).isSome = true :=
  (machina_C2_amended c2Good testReg (by decide)).mpr (by decide)

/-- C7: the built-in return action fails exactly when the stack entry is
absent, not a string slice, or an empty slice; otherwise it returns an
update binding the override key to the last element and the stack key to the
slice without that element. -/
theorem machina_C7 (data : Bag) :
    ((∃ e, ReturnToPreviousStateAction data = Except.error e) ↔
      ¬ ∃ ws, bagGet data stackKey = some (Value.strList ws) ∧ ws ≠ []) ∧
    (∀ ws last2, bagGet data stackKey = some (Value.strList ws) →
        ws.getLast? = some last2 →
        ReturnToPreviousStateAction data =
          Except.ok (some [(overrideKey, Value.str last2),
                           (stackKey, Value.strList ws.dropLast)])) := by
  constructor
  · constructor
    · rintro ⟨e, he⟩ ⟨ws, hws, hne⟩
      simp only [ReturnToPreviousStateAction, hws] at he
      rcases hl : ws.getLast? with _ | r
      · exact hne (by simpa using hl)
      · rw [hl] at he
        exact absurd he (by simp)
    · intro hno
      rcases hget : bagGet data stackKey with _ | v
      · exact ⟨("workflow stack not found or empty"),
          by simp only [ReturnToPreviousStateAction, hget]⟩
      · rcases v with s | b | n | l
        · exact ⟨("workflow stack not found or empty"),
            by simp only [ReturnToPreviousStateAction, hget]⟩
        · exact ⟨("workflow stack not found or empty"),
            by simp only [ReturnToPreviousStateAction, hget]⟩
        · exact ⟨("workflow stack not found or empty"),
            by simp only [ReturnToPreviousStateAction, hget]⟩
        · have hl : l = [] := by
            by_contra hcon
            exact hno ⟨l, hget, hcon⟩
          refine ⟨("workflow stack not found or empty"), ?_⟩
          simp only [ReturnToPreviousStateAction, hget, hl]
          rfl
  · intro ws last2 hws hlast
    simp only [ReturnToPreviousStateAction, hws, hlast]

/-- C7 witness: popping from stack [s1, s2] yields an override to s2 and the
shortened stack [s1]. -/
theorem machina_C7_witness :
    ReturnToPreviousStateAction [(stackKey, Value.strList ["s1", "s2"])] =
      Except.ok (some [(overrideKey, Value.str "s2"),
                       (stackKey, Value.strList ["s1"])]) :=
  (machina_C7 [(stackKey, Value.strList ["s1", "s2"])]).2 ["s1", "s2"] "s2" rfl rfl

/-- C3 counterexample: the transition actions leave the override key holding
the non-empty string c, the invocation succeeds and its new state is indeed
c — but the reserved key is NOT absent from the returned bag, because the
override target's entry callback re-wrote it after the engine had deleted
it: the deletion happens before the exit and entry callbacks, not just
before returning. -/
theorem machina_C3_counterexample :
    executeTransitionActions testReg ["setc"] [] [] =
      Except.ok ([(overrideKey, Value.str "c")], [(Phase.transitionAction, "setc")]) ∧
    ("c" : String) ≠ "" ∧
    (Trigger c3BadSM "a" "go" []).result =
      Except.ok { NewState := "c", AutoEvent := "",
                  PersistenceData := [(overrideKey, Value.str "zzz")] } ∧
    bagGet [(overrideKey, Value.str "zzz")] overrideKey = some (Value.str "zzz") :=
  ⟨rfl, by decide, rfl, rfl⟩

/-- C3 (amended): if the transition actions leave the override key holding a
non-empty string S and Trigger succeeds, the result's new state is S
regardless of the transition's static target — unconditionally, whatever the
exit and entry callbacks do; and provided additionally that the source
state's exit callbacks and the override target's entry callbacks do not
themselves write the reserved key, that key is absent from the returned
bag. -/
theorem machina_C3_amended (sm : StateMachine) (currentState event : String)
    (payload : Bag) (st : State) (t : Transition) (condTrace : Trace) (pd : Bag)
    (actTrace : Trace) (S : String) (r : TransitionResult)
    (hst : lookupState sm.definition currentState = some st)
    (ht : getTransitionForEvent sm.registry st event payload = Except.ok t)
    (hcond : executeConditions sm.registry t.Conditions payload = Except.ok condTrace)
    (hact : executeTransitionActions sm.registry t.Actions payload payload =
      Except.ok (pd, actTrace))
    (hover : bagGet pd overrideKey = some (Value.str S))
    (hS : S ≠ "")
    (h : (Trigger sm currentState event payload).result = Except.ok r) :
    r.NewState = S ∧
    ((∀ a ∈ st.OnLeave, ∀ act updates, sm.registry.actions a = some act →
        act payload = Except.ok (some updates) → bagGet updates overrideKey = none) →
     (∀ tgt a, lookupState sm.definition S = some tgt → a ∈ tgt.OnEnter →
        ∀ act updates, sm.registry.actions a = some act →
        act payload = Except.ok (some updates) → bagGet updates overrideKey = none) →
     bagGet r.PersistenceData overrideKey = none) := by
  rcases Trigger_ok_inv sm currentState event payload r h with
    ⟨st2, t2, condTrace2, pd1, actTrace2, pd3, leaveTrace, tgt, pd4, enterTrace,
     hst2, ht2, hcond2, hact2, hleave, htgt, henter, hr, htrace⟩
  rw [hst] at hst2
  injection hst2 with hstEq
  subst hstEq
  rw [ht] at ht2
  injection ht2 with htEq
  subst htEq
  rw [hact] at hact2
  injection hact2 with hactEq
  injection hactEq with hpdEq htrEq
  subst hpdEq
  have hap : applyOverride t pd = ({ t with Target := S }, bagErase pd overrideKey) := by
    simp only [applyOverride, hover, if_neg hS]
  rw [hap] at hleave htgt hr
  simp only at hleave htgt hr
  constructor
  · rw [hr]
  · intro hleaveFrame henterFrame
    have h0 : bagGet (bagErase pd overrideKey) overrideKey = none :=
      bagGet_erase_self pd overrideKey
    have h3 : bagGet pd3 overrideKey = none := by
      rw [executeOnLeaveActions] at hleave
      exact runActions_ok_get_none _ _ _ _ _ _ _ _ _ _ hleave h0 hleaveFrame
    have h4 : bagGet pd4 overrideKey = none := by
      rw [executeOnEnterActions] at henter
      exact runActions_ok_get_none _ _ _ _ _ _ _ _ _ _ henter h3
        (fun a ha => henterFrame tgt a htgt ha)
    rw [hr]
    exact h4

/-- C3 witness: the amended theorem applied to the override scenario whose
exit and entry callback lists are empty: the new state is the overridden c
and the reserved key is gone from the returned bag. -/
theorem machina_C3_witness :
    ({ NewState := "c", AutoEvent := "", PersistenceData := [] } :
        TransitionResult).NewState = "c" ∧
    bagGet ({ NewState := "c", AutoEvent := "", PersistenceData := [] } :
        TransitionResult).PersistenceData overrideKey = none := by
  have happ := machina_C3_amended c3GoodSM "a" "go" [] c3StateA c3TGoB []
    [(overrideKey, Value.str "c")] [(Phase.transitionAction, "setc")] "c"
    { NewState := "c", AutoEvent := "", PersistenceData := [] }
    rfl rfl rfl rfl rfl (by decide) rfl
  refine ⟨happ.1, happ.2 ?_ ?_⟩
  · intro a ha
    simp [c3StateA] at ha
  · intro tgt a htgt ha
    rw [show lookupState c3GoodSM.definition "c" = some c3StateCGood from rfl] at htgt
    injection htgt with hh
    rw [← hh] at ha
    simp [c3StateCGood] at ha

/-- C6: in every successful Trigger invocation the callback trace is exactly
the resolved transition's conditions, then its transition actions, then the
exit callbacks of the source state looked up under currentState (not of any
overridden target), in declaration order, and then the entry callbacks of
the state the invocation actually ended in (r.NewState, i.e. after any
override) — so exit callbacks of the literal source state run between the
override check and the target's entry callbacks, also when the target was
dynamically overridden. -/
theorem machina_C6 (sm : StateMachine) (currentState event : String) (payload : Bag)
    (r : TransitionResult)
    (h : (Trigger sm currentState event payload).result = Except.ok r) :
    ∃ st t tgt,
      lookupState sm.definition currentState = some st ∧
      getTransitionForEvent sm.registry st event payload = Except.ok t ∧
      lookupState sm.definition r.NewState = some tgt ∧
      (Trigger sm currentState event payload).trace =
        (t.Conditions.map fun c => (Phase.condition, c)) ++
        (t.Actions.map fun a => (Phase.transitionAction, a)) ++
        (st.OnLeave.map fun a => (Phase.onLeave, a)) ++
        (tgt.OnEnter.map fun a => (Phase.onEnter, a)) := by
  rcases Trigger_ok_inv sm currentState event payload r h with
    ⟨st, t, condTrace, pd1, actTrace, pd3, leaveTrace, tgt, pd4, enterTrace,
     hst, ht, hcond, hact, hleave, htgt, henter, hr, htrace⟩
  refine ⟨st, t, tgt, hst, ht, ?_, ?_⟩
  · rw [hr]
    exact htgt
  · rw [executeTransitionActions] at hact
    rw [executeOnLeaveActions] at hleave
    rw [executeOnEnterActions] at henter
    rw [htrace, executeConditions_ok_trace _ _ _ _ hcond,
        runActions_ok_trace _ _ _ _ _ _ _ _ _ hact,
        runActions_ok_trace _ _ _ _ _ _ _ _ _ hleave,
        runActions_ok_trace _ _ _ _ _ _ _ _ _ henter]

/-- C6 witness: in a concrete run whose action dynamically overrides the
target to c, the trace is condition, transition action, the source state's
exit callback, then the override target's entry callback. -/
theorem machina_C6_witness :
    ∃ st t tgt,
      lookupState c6SM.definition "a" = some st ∧
      getTransitionForEvent c6SM.registry st "go" [] = Except.ok t ∧
      lookupState c6SM.definition
        ({ NewState := "c", AutoEvent := "",
           PersistenceData := [("mark", Value.boolean true)] } :
            TransitionResult).NewState = some tgt ∧
      (Trigger c6SM "a" "go" []).trace =
        (t.Conditions.map fun c => (Phase.condition, c)) ++
        (t.Actions.map fun a => (Phase.transitionAction, a)) ++
        (st.OnLeave.map fun a => (Phase.onLeave, a)) ++
        (tgt.OnEnter.map fun a => (Phase.onEnter, a)) :=
  machina_C6 c6SM "a" "go" []
    { NewState := "c", AutoEvent := "", PersistenceData := [("mark", Value.boolean true)] }
    rfl

/-- C10: if after the transition actions the working bag holds the reserved
override key with a value that is not a non-empty string (the empty string
or a non-string), and Trigger succeeds, then the result's new state is the
transition's statically configured target and the reserved key is still
present in the returned bag. -/
theorem machina_C10 (sm : StateMachine) (currentState event : String)
    (payload : Bag) (st : State) (t : Transition) (condTrace : Trace) (pd : Bag)
    (actTrace : Trace) (v : Value) (r : TransitionResult)
    (hst : lookupState sm.definition currentState = some st)
    (ht : getTransitionForEvent sm.registry st event payload = Except.ok t)
    (hcond : executeConditions sm.registry t.Conditions payload = Except.ok condTrace)
    (hact : executeTransitionActions sm.registry t.Actions payload payload =
      Except.ok (pd, actTrace))
    (hover : bagGet pd overrideKey = some v)
    (hv : ∀ s, v = Value.str s → s = "")
    (h : (Trigger sm currentState event payload).result = Except.ok r) :
    r.NewState = t.Target ∧ (bagGet r.PersistenceData overrideKey).isSome = true := by
  rcases Trigger_ok_inv sm currentState event payload r h with
    ⟨st2, t2, condTrace2, pd1, actTrace2, pd3, leaveTrace, tgt, pd4, enterTrace,
     hst2, ht2, hcond2, hact2, hleave, htgt, henter, hr, htrace⟩
  rw [hst] at hst2
  injection hst2 with hstEq
  subst hstEq
  rw [ht] at ht2
  injection ht2 with htEq
  subst htEq
  rw [hact] at hact2
  injection hact2 with hactEq
  injection hactEq with hpdEq htrEq
  subst hpdEq
  have hap : applyOverride t pd = (t, pd) := by
    rcases v with s | b | n | l
    · have hs : s = "" := hv s rfl
      subst hs
      simp [applyOverride, hover]
    · simp [applyOverride, hover]
    · simp [applyOverride, hover]
    · simp [applyOverride, hover]
  rw [hap] at hleave htgt hr
  simp only at hleave htgt hr
  constructor
  · rw [hr]
  · have h0 : (bagGet pd overrideKey).isSome = true := by
      rw [hover]; rfl
    have h3 : (bagGet pd3 overrideKey).isSome = true := by
      rw [executeOnLeaveActions] at hleave
      exact runActions_ok_isSome _ _ _ _ _ _ _ _ _ _ hleave h0
    have h4 : (bagGet pd4 overrideKey).isSome = true := by
      rw [executeOnEnterActions] at henter
      exact runActions_ok_isSome _ _ _ _ _ _ _ _ _ _ henter h3
    rw [hr]
    exact h4

/-- C10 witness: an action that writes the empty string under the reserved
key: the transition proceeds to the static target b and the key is still in
the returned bag. -/
theorem machina_C10_witness :
    c10Result.NewState = c10TGoB.Target ∧
    (bagGet c10Result.PersistenceData overrideKey).isSome = true :=
  machina_C10 c10SM "a" "go" [] c10StateA c10TGoB []
    [(overrideKey, Value.str "")] [(Phase.transitionAction, "setEmpty")]
    (Value.str "") c10Result
    rfl rfl rfl rfl rfl
    (by intro s hs; injection hs with hh; exact hh.symm)
    rfl

/-- C8: the Trigger pipeline never writes into the caller's payload map — it
copies it into the working persistence bag on entry and performs every merge
and the override deletion on that copy only — so the caller's bag, threaded
through the embedding as payloadAfter, is returned unchanged on success and
on every failure path. -/
theorem machina_C8 (sm : StateMachine) (currentState event : String) (payload : Bag) :
    (Trigger sm currentState event payload).payloadAfter = payload := by
  rw [Trigger]
  repeat' split
  all_goals rfl

/-- C9: Trigger treats the workflow definition as read-only: across any
sequence of invocations (each seeing the definition the previous one left
behind), the definition equals its value at construction — in particular the
dynamic-target override only rewrites the per-invocation copy of the
resolved transition, never the definition's stored transitions. -/
theorem machina_C9 (wd : WorkflowDefinition) (reg : Registry)
    (calls : List (String × String × Bag)) :
    calls.foldl
      (fun d args =>
        (Trigger { definition := d, registry := reg } args.1 args.2.1 args.2.2).definitionAfter)
      wd = wd := by
  have hsingle : ∀ (d : WorkflowDefinition) (c e : String) (p : Bag),
      (Trigger { definition := d, registry := reg } c e p).definitionAfter = d := by
    intro d c e p
    rw [Trigger]
    repeat' split
    all_goals rfl
  induction calls generalizing wd with
  | nil => rfl
  | cons a rest ih =>
      rw [List.foldl_cons, hsingle wd a.1 a.2.1 a.2.2]
      exact ih wd
